import Mathlib

/-!
Verification of the rendered-state snapshot store (RenderedTaskInstanceFields):
recursive field renderer, secret redactor, and snapshot store with retention
pruning.  The store implementation itself is not part of the source tree
(only its test suite is), so the component is modelled from the spec and the
behaviour pinned by `tests/models/test_renderedtifields.py`.
-/

namespace RTIF

/-- Modelled from the spec: `Value` is the recursively-typed union used for
rendered (and raw) field values: null, bool, number, string, date, timestamp,
ordered sequence, mapping, and a capability-typed object that declares its
template fields and carries a kind label (the missing
`airflow/models/renderedtifields.py` and serialization layer). -/
inductive Value where
  | vnull : Value
  | vbool : Bool → Value
  | vnum : Int → Value
  | vstr : String → Value
  | vdate : Nat → Nat → Nat → Value
  | vtime : Nat → Nat → Nat → Nat → Nat → Nat → Value
  | vseq : List Value → Value
  | vmap : List (String × Value) → Value
  | vobj : String → List String → List (String × Value) → Value

open Value

/-- Left-pad a numeral to two digits. -/
def pad2 (n : Nat) : String :=
  if n < 10 then "0" ++ toString n else toString n

/-- Left-pad a numeral to four digits. -/
def pad4 (n : Nat) : String :=
  if n < 10 then "000" ++ toString n
  else if n < 100 then "00" ++ toString n
  else if n < 1000 then "0" ++ toString n
  else toString n

/-- Modelled from the spec: ISO calendar-date string YYYY-MM-DD. -/
def isoDate (y m d : Nat) : String :=
  pad4 y ++ "-" ++ pad2 m ++ "-" ++ pad2 d

/-- Modelled from the spec: ISO instant string including the UTC offset,
as the tests pin it ("2018-12-06 10:55:00+00:00"). -/
def isoInstant (y m d hh mi ss : Nat) : String :=
  isoDate y m d ++ " " ++ pad2 hh ++ ":" ++ pad2 mi ++ ":" ++ pad2 ss ++ "+00:00"

/-- Does a character list contain two consecutive opening braces? -/
def hasDoubleBrace : List Char → Bool
  | c1 :: c2 :: rest => (c1 = '\x7b' && c2 = '\x7b') || hasDoubleBrace (c2 :: rest)
  | _ => false

/-- Modelled from the spec: a string "contains template syntax" when it holds
a template expression opener. -/
def containsTemplateMarker (s : String) : Bool :=
  hasDoubleBrace s.data

mutual
/-- Modelled from the spec: the recursive field renderer.  `f` is the injected
template-substitution function (context already applied).  Strings containing
template syntax go through `f`; null/bool/number pass through; dates and
timestamps render to ISO strings; sequences render element-wise; mappings
render value-wise keeping keys; capability-typed objects render only their
declared template fields, keeping kind label and non-declared attributes
verbatim. -/
def renderVal (f : String → String) : Value → Value
  | vnull => vnull
  | vbool b => vbool b
  | vnum n => vnum n
  | vstr s => if containsTemplateMarker s then vstr (f s) else vstr s
  | vdate y m d => vstr (isoDate y m d)
  | vtime y m d hh mi ss => vstr (isoInstant y m d hh mi ss)
  | vseq xs => vseq (renderSeq f xs)
  | vmap xs => vmap (renderPairs f xs)
  | vobj kind tfs attrs => vobj kind tfs (renderOwnAttrs f tfs attrs)

/-- Element-wise rendering of a sequence. -/
def renderSeq (f : String → String) : List Value → List Value
  | [] => []
  | v :: vs => renderVal f v :: renderSeq f vs

/-- Value-wise rendering of a mapping; keys are not template-resolved. -/
def renderPairs (f : String → String) : List (String × Value) → List (String × Value)
  | [] => []
  | (k, v) :: rest => (k, renderVal f v) :: renderPairs f rest

/-- Attribute rendering for a capability-typed object: only attributes whose
name is declared in `tfs` are rendered; the rest are preserved verbatim. -/
def renderOwnAttrs (f : String → String) (tfs : List String) :
    List (String × Value) → List (String × Value)
  | [] => []
  | (k, v) :: rest =>
      (if tfs.contains k then (k, renderVal f v) else (k, v)) :: renderOwnAttrs f tfs rest
end

/-- The fixed masking marker the redactor substitutes for sensitive values. -/
def maskValue : Value := vstr "***"

mutual
/-- Modelled from the spec: the secret redactor walk.  `p` is the sensitivity
policy on key names (`shouldMask`), `sec` the known-secret-value check, `key`
the nearest enclosing key name.  Containers are walked depth-first preserving
shape; a leaf whose nearest enclosing key matches the policy, or whose value
is a known secret, is replaced by the mask marker. -/
def redactVal (p : String → Bool) (sec : Value → Bool) (key : String) : Value → Value
  | vseq xs => vseq (redactSeq p sec key xs)
  | vmap xs => vmap (redactPairs p sec xs)
  | v => if p key || sec v then maskValue else v

/-- Redaction of a sequence: each element keeps the enclosing key. -/
def redactSeq (p : String → Bool) (sec : Value → Bool) (key : String) :
    List Value → List Value
  | [] => []
  | v :: vs => redactVal p sec key v :: redactSeq p sec key vs

/-- Redaction of a mapping: keys are never removed, each value is redacted
under its own key (the new nearest enclosing key). -/
def redactPairs (p : String → Bool) (sec : Value → Bool) :
    List (String × Value) → List (String × Value)
  | [] => []
  | (k, v) :: rest => (k, redactVal p sec k v) :: redactPairs p sec rest
end

/-- Is this value the mask marker? -/
def Value.isMaskMarker : Value → Bool
  | vstr s => s = "***"
  | _ => false

mutual
/-- Checker: no leaf whose nearest enclosing key matches the policy, and no
known-secret leaf, survives unmasked. -/
def leakFree (p : String → Bool) (sec : Value → Bool) (key : String) : Value → Bool
  | vseq xs => leakFreeSeq p sec key xs
  | vmap xs => leakFreePairs p sec xs
  | v => !(p key || sec v) || v.isMaskMarker

def leakFreeSeq (p : String → Bool) (sec : Value → Bool) (key : String) :
    List Value → Bool
  | [] => true
  | v :: vs => leakFree p sec key v && leakFreeSeq p sec key vs

def leakFreePairs (p : String → Bool) (sec : Value → Bool) :
    List (String × Value) → Bool
  | [] => true
  | (k, v) :: rest => leakFree p sec k v && leakFreePairs p sec rest
end

mutual
/-- A value is `clean` under an enclosing key when nothing in it is matched by
the policy or is a known secret: redaction must leave it untouched. -/
def clean (p : String → Bool) (sec : Value → Bool) (key : String) : Value → Bool
  | vseq xs => cleanSeq p sec key xs
  | vmap xs => cleanPairs p sec xs
  | v => !(p key || sec v)

def cleanSeq (p : String → Bool) (sec : Value → Bool) (key : String) :
    List Value → Bool
  | [] => true
  | v :: vs => clean p sec key v && cleanSeq p sec key vs

def cleanPairs (p : String → Bool) (sec : Value → Bool) :
    List (String × Value) → Bool
  | [] => true
  | (k, v) :: rest => clean p sec k v && cleanPairs p sec rest
end

/-- Modelled from the spec: a work-unit (task) definition declaring its
ordered template fields and its raw attribute values (the `HasTemplateFields`
capability of design note 9). -/
structure TaskDef where
  taskId : String
  templateFields : List String
  attrs : List (String × Value)

/-- Raw value of a declared field; a declared but unset attribute reads as
null (e.g. BashOperator's `env` defaulting to None). -/
def TaskDef.getAttr (t : TaskDef) (name : String) : Value :=
  match t.attrs.lookup name with
  | some v => v
  | none => Value.vnull

/-- Modelled from the spec: the rendered-fields mapping of a snapshot is built
by rendering, in declaration order, every declared template field of the
task. -/
def renderedFieldsOf (f : String → String) (t : TaskDef) : List (String × Value) :=
  t.templateFields.map (fun name => (name, renderVal f (t.getAttr name)))

/-- Modelled from the spec: composite run identity
`(workflowId/dag_id, taskId, runKey/execution_date)`. -/
structure RunIdentity where
  dagId : String
  taskId : String
  executionDate : Nat
  deriving DecidableEq

/-- Modelled from the spec: one RenderedSnapshot row: identity, redacted
rendered fields, optional pod-spec snapshot, and the retention sort key. -/
structure Snapshot where
  identity : RunIdentity
  renderedFields : List (String × Value)
  k8sPodYaml : Option (List (String × Value))
  createdAt : Nat

/-- The persistence medium: the rendered_task_instance_fields table. -/
abbrev Store := List Snapshot

/-- Modelled from the spec: building a snapshot renders every declared field,
redacts each top-level field value under its field name, and redacts the
pod-spec mapping, before anything is persisted. -/
def buildSnapshot (f : String → String) (p : String → Bool) (sec : Value → Bool)
    (id : RunIdentity) (t : TaskDef) (pod : Option (List (String × Value)))
    (now : Nat) : Snapshot :=
  { identity := id
    renderedFields := redactPairs p sec (renderedFieldsOf f t)
    k8sPodYaml := pod.map (redactPairs p sec)
    createdAt := now }

/-- Modelled from the spec: `write` is a replace-semantics upsert: the new
snapshot fully supersedes any prior row with the same identity. -/
def write (store : Store) (s : Snapshot) : Store :=
  store.filter (fun r => !(decide (r.identity = s.identity))) ++ [s]

/-- Modelled from the spec: point lookup of the rendered fields; absent (not
an error) when no snapshot exists for the identity. -/
def getTemplatedFields (store : Store) (id : RunIdentity) :
    Option (List (String × Value)) :=
  (store.find? (fun r => decide (r.identity = id))).map (fun r => r.renderedFields)

/-- Modelled from the spec: independent point lookup of the pod-spec
snapshot, with the same absence semantics. -/
def getK8sPodYaml (store : Store) (id : RunIdentity) :
    Option (List (String × Value)) :=
  (store.find? (fun r => decide (r.identity = id))).bind (fun r => r.k8sPodYaml)

/-- Is this row in the `(dagId, taskId)` retention group? -/
def inGroup (dagId taskId : String) (r : Snapshot) : Bool :=
  decide (r.identity.dagId = dagId) && decide (r.identity.taskId = taskId)

/-- Descending order on the retention sort key: `a` comes before `b` when `a`
was created no earlier than `b`. -/
def newerOrder (a b : Snapshot) : Prop := b.createdAt ≤ a.createdAt

instance : DecidableRel newerOrder := fun a b => Nat.decLe b.createdAt a.createdAt

instance : IsTotal Snapshot newerOrder :=
  ⟨fun a b => (Nat.le_total b.createdAt a.createdAt).imp (fun h => h) (fun h => h)⟩

instance : IsTrans Snapshot newerOrder :=
  ⟨fun _ _ _ hab hbc => Nat.le_trans hbc hab⟩

/-- The sub-selection of the pruning query: the sort keys of the most recent
`n` rows of the `(dagId, taskId)` group, ordered by `createdAt` descending. -/
def keepKeys (store : Store) (dagId taskId : String) (n : Nat) : List Nat :=
  ((List.insertionSort newerOrder (store.filter (inGroup dagId taskId))).take n).map
    (fun r => r.createdAt)

/-- Modelled from the spec: `pruneOldSnapshots` / `delete_old_records`.
If `keep <= 0` it is a no-op costing zero round trips.  Otherwise, in one
set-oriented operation (one round trip, counted in the second component), it
keeps the most recent `keep` rows of the `(dagId, taskId)` group — selected
via the sub-selection of their sort keys — and deletes every other row of the
group. -/
def deleteOldRecords (store : Store) (dagId taskId : String) (keep : Int) :
    Store × Nat :=
  if keep ≤ 0 then (store, 0)
  else
    (store.filter (fun r => !(inGroup dagId taskId r) ||
      (keepKeys store dagId taskId keep.toNat).contains r.createdAt), 1)

/-- Test template renderer: the jinja context of the test DAG, where
`task.task_id` is "test" (models the substitutions pinned by
`test_get_templated_fields`). -/
def fTest (s : String) : String :=
  if s = "\x7b\x7b task.task_id \x7d\x7d" then "test" else s

/-- The template string used throughout `test_get_templated_fields`. -/
def tmplStr : String := "\x7b\x7b task.task_id \x7d\x7d"

/-- First capability-typed test object: declares only `att1` as a template
field, while `att2` holds the same template text undeclared. -/
def nestedObj1 : Value :=
  vobj "ClassWithCustomAttributes" ["att1"] [("att1", vstr tmplStr), ("att2", vstr tmplStr)]

/-- Second capability-typed test object: declares only `att3`. -/
def nestedObj2 : Value :=
  vobj "ClassWithCustomAttributes" ["att3"] [("att3", vstr tmplStr), ("att4", vstr tmplStr)]

/-- Two-level capability-typed test object: declares only `nested1`, so
`nested2`'s attributes must stay entirely unrendered. -/
def twoLevelObj : Value :=
  vobj "ClassWithCustomAttributes" ["nested1"] [("nested1", nestedObj1), ("nested2", nestedObj2)]

/-- A store of `n` snapshots for the retention-test group, with distinct
creation times `0, …, n-1` (the `test_delete_old_records` fixture). -/
def mkStore (n : Nat) : Store :=
  (List.range n).map (fun i =>
    { identity := { dagId := "test_delete_old_records", taskId := "test", executionDate := i }
      renderedFields := [("bash_command", vstr "echo 2019-01-01"), ("env", vnull)]
      k8sPodYaml := none
      createdAt := i })

/-- Rows of the retention group left in the store after pruning `mkStore n`
with retention limit `keep`. -/
def remainingCount (n : Nat) (keep : Int) : Nat :=
  (((deleteOldRecords (mkStore n) "test_delete_old_records" "test" keep).1).filter
    (inGroup "test_delete_old_records" "test")).length

/-- The BashOperator of the tests: declared template fields `bash_command`
and `env`, with `env` left unset (raw null). -/
def bashTask : TaskDef :=
  { taskId := "test"
    templateFields := ["bash_command", "env"]
    attrs := [("bash_command", vstr tmplStr)] }

section StoreLemmas

theorem filter_write_self (store : Store) (s : Snapshot) :
    (write store s).filter (fun r => decide (r.identity = s.identity)) = [s] := by
  simp [write, List.filter_append, List.filter_filter, Bool.and_not_self]

theorem find?_write (store : Store) (s : Snapshot) :
    (write store s).find? (fun r => decide (r.identity = s.identity)) = some s := by
  have h1 : (store.filter (fun r => !(decide (r.identity = s.identity)))).find?
      (fun r => decide (r.identity = s.identity)) = none := by
    apply List.find?_eq_none.mpr
    intro x hx
    have h2 := (List.mem_filter.mp hx).2
    simp only [Bool.not_eq_true'] at h2
    simp [h2]
  simp [write, List.find?_append, h1]

theorem getTemplatedFields_write (store : Store) (s : Snapshot) :
    getTemplatedFields (write store s) s.identity = some s.renderedFields := by
  simp [getTemplatedFields, find?_write store s]

theorem getK8sPodYaml_write (store : Store) (s : Snapshot) :
    getK8sPodYaml (write store s) s.identity = s.k8sPodYaml := by
  simp [getK8sPodYaml, find?_write store s]

end StoreLemmas

/-- C2: after any sequence of writes whose most recent write is the snapshot
`s`, exactly one snapshot row exists for `s.identity`, and its rendered
content equals the content of that most recent write — a replace-semantics
upsert, never a merge of old and new. -/
theorem write_replace_semantics (store : Store) (prior : List Snapshot) (s : Snapshot) :
    ((List.foldl write store (prior ++ [s])).filter
        (fun r => decide (r.identity = s.identity))).length = 1 ∧
    getTemplatedFields (List.foldl write store (prior ++ [s])) s.identity =
      some s.renderedFields := by
  rw [List.foldl_append]
  constructor
  · simp only [List.foldl]
    rw [filter_write_self]
    rfl
  · simp only [List.foldl]
    exact getTemplatedFields_write _ s

/-- C3: pruning with `keep > 0` costs exactly one round trip to the
persistence medium regardless of the store's contents, and pruning with
`keep <= 0` costs zero round trips and leaves every row unchanged. -/
theorem deleteOldRecords_round_trips (store : Store) (dagId taskId : String) (keep : Int) :
    (0 < keep → (deleteOldRecords store dagId taskId keep).2 = 1) ∧
    (keep ≤ 0 → deleteOldRecords store dagId taskId keep = (store, 0)) := by
  constructor
  · intro h
    simp only [deleteOldRecords]
    rw [if_neg (by omega)]
  · intro h
    simp only [deleteOldRecords]
    rw [if_pos h]

/-- Witness for C3 at the six-row fixture with `keep = 1` and at `keep = 0`. -/
theorem deleteOldRecords_round_trips_witness :
    (deleteOldRecords (mkStore 3) "test_delete_old_records" "test" 1).2 = 1 ∧
    deleteOldRecords (mkStore 1) "test_delete_old_records" "test" 0 = (mkStore 1, 0) :=
  ⟨(deleteOldRecords_round_trips (mkStore 3) "test_delete_old_records" "test" 1).1 (by decide),
   (deleteOldRecords_round_trips (mkStore 1) "test_delete_old_records" "test" 0).2 (by decide)⟩

/-- C8: a point lookup for a run identity never written — rendered fields or
pod-spec snapshot — returns the explicit absence value, not an error. -/
theorem lookup_absent (store : Store) (id : RunIdentity)
    (h : ∀ r ∈ store, r.identity ≠ id) :
    getTemplatedFields store id = none ∧ getK8sPodYaml store id = none := by
  have hf : store.find? (fun r => decide (r.identity = id)) = none :=
    List.find?_eq_none.mpr (fun x hx => by simp [h x hx])
  simp [getTemplatedFields, getK8sPodYaml, hf]

/-- Witness for C8: lookups of the never-written task `test2` in a store
holding only a snapshot for task `test` return the absence value. -/
theorem lookup_absent_witness :
    getTemplatedFields (mkStore 1) ⟨"test_delete_old_records", "test2", 0⟩ = none ∧
    getK8sPodYaml (mkStore 1) ⟨"test_delete_old_records", "test2", 0⟩ = none :=
  lookup_absent (mkStore 1) ⟨"test_delete_old_records", "test2", 0⟩ (by decide)

/-- C9: fetching the pod-spec snapshot after a write returns exactly the
written pod-spec mapping; the pod-spec lookup is independent of the
rendered-fields column, and the rendered-fields lookup is independent of the
pod-spec column. -/
theorem podYaml_stored_independently (store : Store) (id : RunIdentity)
    (fields fields2 : List (String × Value)) (pod : List (String × Value)) (t : Nat) :
    getK8sPodYaml (write store ⟨id, fields, some pod, t⟩) id = some pod ∧
    getK8sPodYaml (write store ⟨id, fields, some pod, t⟩) id =
      getK8sPodYaml (write store ⟨id, fields2, some pod, t⟩) id ∧
    (∀ pod2 : Option (List (String × Value)),
      getTemplatedFields (write store ⟨id, fields, pod2, t⟩) id = some fields) := by
  refine ⟨getK8sPodYaml_write store ⟨id, fields, some pod, t⟩, ?_, ?_⟩
  · rw [getK8sPodYaml_write store ⟨id, fields, some pod, t⟩,
      getK8sPodYaml_write store ⟨id, fields2, some pod, t⟩]
  · intro pod2
    exact getTemplatedFields_write store ⟨id, fields, pod2, t⟩

/-- C6: a date value renders to its ISO calendar-date string and a timestamp
value renders to an ISO instant string that includes the UTC offset; at the
test vectors, `date(2018,12,6)` renders to "2018-12-06" and
`datetime(2018,12,6,10,55)` to "2018-12-06 10:55:00+00:00". -/
theorem datetime_iso_rendering :
    (∀ (f : String → String) (y m d : Nat),
      renderVal f (vdate y m d) = vstr (isoDate y m d)) ∧
    (∀ (f : String → String) (y m d hh mi ss : Nat), ∃ rest : String,
      renderVal f (vtime y m d hh mi ss) = vstr (rest ++ "+00:00")) ∧
    renderVal fTest (vdate 2018 12 6) = vstr "2018-12-06" ∧
    renderVal fTest (vtime 2018 12 6 10 55 0) = vstr "2018-12-06 10:55:00+00:00" :=
  ⟨fun _ _ _ _ => rfl, fun _ y m d hh mi ss =>
    ⟨isoDate y m d ++ " " ++ pad2 hh ++ ":" ++ pad2 mi ++ ":" ++ pad2 ss, rfl⟩,
   rfl, rfl⟩

theorem renderPairs_plain (f : String → String) (entries : List (String × Value))
    (h : ∀ kv ∈ entries, ∃ s, kv.2 = vstr s ∧ containsTemplateMarker s = false) :
    renderPairs f entries = entries := by
  induction entries with
  | nil => rfl
  | cons kv rest ih =>
    obtain ⟨s, hs, hts⟩ := h kv (List.mem_cons_self kv rest)
    obtain ⟨k, v⟩ := kv
    simp only at hs
    subst hs
    simp only [renderPairs, renderVal, hts, Bool.false_eq_true, if_false]
    rw [ih (fun kv hkv => h kv (List.mem_cons_of_mem _ hkv))]

/-- C7: rendering is the identity on template-free inputs: null, the empty
sequence, the empty mapping, any plain string without template syntax, and
any mapping of plain strings — checked also at the concrete test vectors
"test-string" and the mapping foo to bar. -/
theorem render_identity_on_template_free :
    (∀ f : String → String, renderVal f vnull = vnull) ∧
    (∀ f : String → String, renderVal f (vseq []) = vseq []) ∧
    (∀ f : String → String, renderVal f (vmap []) = vmap []) ∧
    (∀ (f : String → String) (s : String), containsTemplateMarker s = false →
      renderVal f (vstr s) = vstr s) ∧
    (∀ (f : String → String) (entries : List (String × Value)),
      (∀ kv ∈ entries, ∃ s, kv.2 = vstr s ∧ containsTemplateMarker s = false) →
      renderVal f (vmap entries) = vmap entries) ∧
    renderVal fTest (vstr "test-string") = vstr "test-string" ∧
    renderVal fTest (vmap [("foo", vstr "bar")]) = vmap [("foo", vstr "bar")] := by
  refine ⟨fun _ => rfl, fun _ => rfl, fun _ => rfl, ?_, ?_, rfl, rfl⟩
  · intro f s h
    simp [renderVal, h]
  · intro f entries h
    simp only [renderVal]
    rw [renderPairs_plain f entries h]

/-- Witness for C7 at the concrete template-free inputs of the test table. -/
theorem render_identity_witness :
    renderVal fTest (vstr "test-string") = vstr "test-string" ∧
    renderVal fTest (vmap [("foo", vstr "bar")]) = vmap [("foo", vstr "bar")] :=
  ⟨render_identity_on_template_free.2.2.2.1 fTest "test-string" (by decide),
   render_identity_on_template_free.2.2.2.2.1 fTest [("foo", vstr "bar")]
     (by
       intro kv hkv
       rw [List.mem_singleton] at hkv
       subst hkv
       exact ⟨"bar", rfl, by decide⟩)⟩

theorem renderOwnAttrs_not_declared (f : String → String) (tfs : List String)
    (attrs : List (String × Value)) (k : String) (v : Value)
    (hmem : (k, v) ∈ attrs) (hnd : tfs.contains k = false) :
    (k, v) ∈ renderOwnAttrs f tfs attrs := by
  induction attrs with
  | nil => cases hmem
  | cons kv rest ih =>
    obtain ⟨k2, v2⟩ := kv
    simp only [renderOwnAttrs]
    rcases List.mem_cons.mp hmem with heq | hm
    · obtain ⟨h1, h2⟩ := Prod.mk.injEq .. ▸ heq
      subst h1; subst h2
      have hk : k ∉ tfs := by simpa using hnd
      simp [hk]
    · exact List.mem_cons_of_mem _ (ih hm)

theorem renderOwnAttrs_declared (f : String → String) (tfs : List String)
    (attrs : List (String × Value)) (k : String) (v : Value)
    (hmem : (k, v) ∈ attrs) (hd : tfs.contains k = true) :
    (k, renderVal f v) ∈ renderOwnAttrs f tfs attrs := by
  induction attrs with
  | nil => cases hmem
  | cons kv rest ih =>
    obtain ⟨k2, v2⟩ := kv
    simp only [renderOwnAttrs]
    rcases List.mem_cons.mp hmem with heq | hm
    · obtain ⟨h1, h2⟩ := Prod.mk.injEq .. ▸ heq
      subst h1; subst h2
      have hk : k ∈ tfs := by simpa using hd
      simp [hk]
    · exact List.mem_cons_of_mem _ (ih hm)

/-- C5: rendering a capability-typed object produces a tagged representation
keeping the object's kind label; it resolves exactly the declared template
fields (recursively) and preserves every non-declared attribute verbatim — in
particular, at the two-level test object, the inner declared field `att1` is
resolved through two levels, the undeclared sibling `att2` keeps its raw
template text, and the attributes of `nested2` (not itself declared) are left
entirely unrendered. -/
theorem capability_object_rendering :
    (∀ (f : String → String) (kind : String) (tfs : List String)
        (attrs : List (String × Value)),
      renderVal f (vobj kind tfs attrs) = vobj kind tfs (renderOwnAttrs f tfs attrs)) ∧
    (∀ (f : String → String) (tfs : List String) (attrs : List (String × Value))
        (k : String) (v : Value), (k, v) ∈ attrs → tfs.contains k = false →
      (k, v) ∈ renderOwnAttrs f tfs attrs) ∧
    (∀ (f : String → String) (tfs : List String) (attrs : List (String × Value))
        (k : String) (v : Value), (k, v) ∈ attrs → tfs.contains k = true →
      (k, renderVal f v) ∈ renderOwnAttrs f tfs attrs) ∧
    renderVal fTest nestedObj1 = vobj "ClassWithCustomAttributes" ["att1"]
      [("att1", vstr "test"), ("att2", vstr tmplStr)] ∧
    renderVal fTest twoLevelObj = vobj "ClassWithCustomAttributes" ["nested1"]
      [("nested1", vobj "ClassWithCustomAttributes" ["att1"]
          [("att1", vstr "test"), ("att2", vstr tmplStr)]),
       ("nested2", nestedObj2)] :=
  ⟨fun _ _ _ _ => rfl, renderOwnAttrs_not_declared, renderOwnAttrs_declared, rfl, rfl⟩

/-- Witness for C5: at the first test object, the undeclared attribute `att2`
survives verbatim and the declared attribute `att1` is resolved. -/
theorem capability_object_rendering_witness :
    ("att2", vstr tmplStr) ∈
      renderOwnAttrs fTest ["att1"] [("att1", vstr tmplStr), ("att2", vstr tmplStr)] ∧
    ("att1", renderVal fTest (vstr tmplStr)) ∈
      renderOwnAttrs fTest ["att1"] [("att1", vstr tmplStr), ("att2", vstr tmplStr)] :=
  ⟨capability_object_rendering.2.1 fTest ["att1"]
      [("att1", vstr tmplStr), ("att2", vstr tmplStr)] "att2" (vstr tmplStr)
      (List.mem_cons_of_mem _ (List.mem_cons_self _ _)) (by decide),
   capability_object_rendering.2.2.1 fTest ["att1"]
      [("att1", vstr tmplStr), ("att2", vstr tmplStr)] "att1" (vstr tmplStr)
      (List.mem_cons_self _ _) (by decide)⟩

mutual
theorem leakFree_redactVal (p : String → Bool) (sec : Value → Bool) (key : String) :
    (v : Value) → leakFree p sec key (redactVal p sec key v) = true
  | vnull => by
    simp only [redactVal]
    cases h : p key || sec vnull <;>
      simp [h, leakFree, maskValue, Value.isMaskMarker]
  | vbool b => by
    simp only [redactVal]
    cases h : p key || sec (vbool b) <;>
      simp [h, leakFree, maskValue, Value.isMaskMarker]
  | vnum n => by
    simp only [redactVal]
    cases h : p key || sec (vnum n) <;>
      simp [h, leakFree, maskValue, Value.isMaskMarker]
  | vstr str => by
    simp only [redactVal]
    cases h : p key || sec (vstr str) <;>
      simp [h, leakFree, maskValue, Value.isMaskMarker]
  | vdate y m d => by
    simp only [redactVal]
    cases h : p key || sec (vdate y m d) <;>
      simp [h, leakFree, maskValue, Value.isMaskMarker]
  | vtime y m d hh mi ss => by
    simp only [redactVal]
    cases h : p key || sec (vtime y m d hh mi ss) <;>
      simp [h, leakFree, maskValue, Value.isMaskMarker]
  | vobj kind tfs attrs => by
    simp only [redactVal]
    cases h : p key || sec (vobj kind tfs attrs) <;>
      simp [h, leakFree, maskValue, Value.isMaskMarker]
  | vseq xs => by
    simp only [redactVal, leakFree]
    exact leakFree_redactSeq p sec key xs
  | vmap xs => by
    simp only [redactVal, leakFree]
    exact leakFree_redactPairs p sec xs

theorem leakFree_redactSeq (p : String → Bool) (sec : Value → Bool) (key : String) :
    (xs : List Value) → leakFreeSeq p sec key (redactSeq p sec key xs) = true
  | [] => rfl
  | v :: vs => by
    simp only [redactSeq, leakFreeSeq]
    rw [leakFree_redactVal p sec key v, leakFree_redactSeq p sec key vs]
    rfl

theorem leakFree_redactPairs (p : String → Bool) (sec : Value → Bool) :
    (xs : List (String × Value)) → leakFreePairs p sec (redactPairs p sec xs) = true
  | [] => rfl
  | (k, v) :: rest => by
    simp only [redactPairs, leakFreePairs]
    rw [leakFree_redactVal p sec k v, leakFree_redactPairs p sec rest]
    rfl
end

mutual
theorem redactVal_clean (p : String → Bool) (sec : Value → Bool) (key : String) :
    (v : Value) → clean p sec key v = true → redactVal p sec key v = v
  | vnull => fun h => by
    simp only [clean, Bool.not_eq_true', Bool.not_eq_eq_eq_not] at h
    simp [redactVal, h]
  | vbool b => fun h => by
    simp only [clean, Bool.not_eq_true', Bool.not_eq_eq_eq_not] at h
    simp [redactVal, h]
  | vnum n => fun h => by
    simp only [clean, Bool.not_eq_true', Bool.not_eq_eq_eq_not] at h
    simp [redactVal, h]
  | vstr str => fun h => by
    simp only [clean, Bool.not_eq_true', Bool.not_eq_eq_eq_not] at h
    simp [redactVal, h]
  | vdate y m d => fun h => by
    simp only [clean, Bool.not_eq_true', Bool.not_eq_eq_eq_not] at h
    simp [redactVal, h]
  | vtime y m d hh mi ss => fun h => by
    simp only [clean, Bool.not_eq_true', Bool.not_eq_eq_eq_not] at h
    simp [redactVal, h]
  | vobj kind tfs attrs => fun h => by
    simp only [clean, Bool.not_eq_true', Bool.not_eq_eq_eq_not] at h
    simp [redactVal, h]
  | vseq xs => fun h => by
    simp only [clean] at h
    simp only [redactVal]
    rw [redactSeq_clean p sec key xs h]
  | vmap xs => fun h => by
    simp only [clean] at h
    simp only [redactVal]
    rw [redactPairs_clean p sec xs h]

theorem redactSeq_clean (p : String → Bool) (sec : Value → Bool) (key : String) :
    (xs : List Value) → cleanSeq p sec key xs = true → redactSeq p sec key xs = xs
  | [], _ => rfl
  | v :: vs, h => by
    simp only [cleanSeq, Bool.and_eq_true] at h
    simp only [redactSeq]
    rw [redactVal_clean p sec key v h.1, redactSeq_clean p sec key vs h.2]

theorem redactPairs_clean (p : String → Bool) (sec : Value → Bool) :
    (xs : List (String × Value)) → cleanPairs p sec xs = true → redactPairs p sec xs = xs
  | [], _ => rfl
  | (k, v) :: rest, h => by
    simp only [cleanPairs, Bool.and_eq_true] at h
    simp only [redactPairs]
    rw [redactVal_clean p sec k v h.1, redactPairs_clean p sec rest h.2]
end

theorem mem_redactPairs (p : String → Bool) (sec : Value → Bool)
    (xs : List (String × Value)) (k : String) (v : Value) (hmem : (k, v) ∈ xs) :
    (k, redactVal p sec k v) ∈ redactPairs p sec xs := by
  induction xs with
  | nil => cases hmem
  | cons kv rest ih =>
    obtain ⟨k2, v2⟩ := kv
    simp only [redactPairs]
    rcases List.mem_cons.mp hmem with heq | hm
    · obtain ⟨h1, h2⟩ := Prod.mk.injEq .. ▸ heq
      subst h1; subst h2
      exact List.mem_cons_self _ _
    · exact List.mem_cons_of_mem _ (ih hm)

/-- C4: a persisted snapshot never contains an unmasked value for any key
matched by the redaction policy (nor any known-secret leaf): redaction is
applied to each rendered top-level field value under its field name, and to
the pod-spec mapping, before persistence, while any sibling entry that the
policy does not touch keeps its rendered value unchanged. -/
theorem redaction_coverage (f : String → String) (p : String → Bool)
    (sec : Value → Bool) (id : RunIdentity) (t : TaskDef)
    (pod : Option (List (String × Value))) (now : Nat) :
    leakFreePairs p sec (buildSnapshot f p sec id t pod now).renderedFields = true ∧
    (∀ podMap, (buildSnapshot f p sec id t pod now).k8sPodYaml = some podMap →
      leakFreePairs p sec podMap = true) ∧
    (∀ (xs : List (String × Value)) (k : String) (v : Value),
      (k, v) ∈ xs → clean p sec k v = true → (k, v) ∈ redactPairs p sec xs) := by
  refine ⟨leakFree_redactPairs p sec _, ?_, ?_⟩
  · intro podMap hpod
    cases pod with
    | none => cases hpod
    | some q =>
      simp only [buildSnapshot, Option.map_some'] at hpod
      cases hpod
      exact leakFree_redactPairs p sec q
  · intro xs k v hmem hclean
    have h := mem_redactPairs p sec xs k v hmem
    rwa [redactVal_clean p sec k v hclean] at h

/-- Witness for C4: a snapshot with a masked key `api_key`, a clean sibling
`other`, and a pod-spec mapping, checked leak-free; the clean sibling of a
two-entry mapping survives redaction unchanged. -/
theorem redaction_coverage_witness :
    leakFreePairs (fun k => k = "api_key") (fun _ => false)
      (buildSnapshot fTest (fun k => k = "api_key") (fun _ => false)
        ⟨"dag", "test", 0⟩
        ⟨"test", ["api_key", "other"], [("api_key", vstr "secret"), ("other", vstr "ok")]⟩
        (some [("host", vstr "pod")]) 0).renderedFields = true ∧
    ("other", vstr "ok") ∈ redactPairs (fun k => k = "api_key") (fun _ => false)
      [("api_key", vstr "secret"), ("other", vstr "ok")] :=
  ⟨(redaction_coverage fTest (fun k => k = "api_key") (fun _ => false)
      ⟨"dag", "test", 0⟩
      ⟨"test", ["api_key", "other"], [("api_key", vstr "secret"), ("other", vstr "ok")]⟩
      (some [("host", vstr "pod")]) 0).1,
   (redaction_coverage fTest (fun k => k = "api_key") (fun _ => false)
      ⟨"dag", "test", 0⟩
      ⟨"test", ["api_key", "other"], [("api_key", vstr "secret"), ("other", vstr "ok")]⟩
      (some [("host", vstr "pod")]) 0).2.2
      [("api_key", vstr "secret"), ("other", vstr "ok")] "other" (vstr "ok")
      (List.mem_cons_of_mem _ (List.mem_cons_self _ _)) (by decide)⟩

theorem map_fst_renderedFieldsOf (f : String → String) (t : TaskDef) :
    (renderedFieldsOf f t).map Prod.fst = t.templateFields := by
  have hcomp : (Prod.fst ∘ fun name => (name, renderVal f (t.getAttr name))) = id := rfl
  rw [renderedFieldsOf, List.map_map, hcomp, List.map_id]

theorem map_fst_redactPairs (p : String → Bool) (sec : Value → Bool)
    (xs : List (String × Value)) :
    (redactPairs p sec xs).map Prod.fst = xs.map Prod.fst := by
  induction xs with
  | nil => rfl
  | cons kv rest ih =>
    obtain ⟨k, v⟩ := kv
    simp only [redactPairs, List.map_cons, ih]

/-- C10: the stored rendered-fields mapping contains an entry for every
template field the task declares (its key list is exactly the declared field
list, in order), and a declared field whose raw value is null appears with
value null rather than being omitted — as with BashOperator's unset `env`,
checked concretely in the last conjunct. -/
theorem rendered_fields_complete (f : String → String) (p : String → Bool)
    (sec : Value → Bool) (id : RunIdentity) (t : TaskDef)
    (pod : Option (List (String × Value))) (now : Nat) (store : Store) :
    getTemplatedFields (write store (buildSnapshot f p sec id t pod now)) id =
      some (redactPairs p sec (renderedFieldsOf f t)) ∧
    (redactPairs p sec (renderedFieldsOf f t)).map Prod.fst = t.templateFields ∧
    (∀ name, name ∈ t.templateFields → t.getAttr name = vnull → p name = false →
      sec vnull = false → (name, vnull) ∈ redactPairs p sec (renderedFieldsOf f t)) ∧
    renderedFieldsOf fTest bashTask = [("bash_command", vstr "test"), ("env", vnull)] := by
  refine ⟨getTemplatedFields_write store _,
    by rw [map_fst_redactPairs, map_fst_renderedFieldsOf], ?_, rfl⟩
  intro name hname hnull hp hsec
  have h1 : (name, vnull) ∈ renderedFieldsOf f t := by
    have h0 : (name, renderVal f (t.getAttr name)) ∈ renderedFieldsOf f t :=
      List.mem_map_of_mem (fun nm => (nm, renderVal f (t.getAttr nm))) hname
    rw [hnull] at h0
    simpa [renderVal] using h0
  have h2 := mem_redactPairs p sec _ name vnull h1
  rwa [show redactVal p sec name vnull = vnull from by simp [redactVal, hp, hsec]] at h2

/-- Witness for C10: the unset `env` field of the BashOperator snapshot is
present with value null after redaction under a policy that masks nothing. -/
theorem rendered_fields_complete_witness :
    ("env", vnull) ∈ redactPairs (fun _ => false) (fun _ => false)
      (renderedFieldsOf fTest bashTask) :=
  (rendered_fields_complete fTest (fun _ => false) (fun _ => false)
      ⟨"test_write", "test", 0⟩ bashTask none 0 []).2.2.1
    "env" (by decide) rfl rfl rfl

theorem length_filter_keys (l tk dr : List Nat)
    (hperm : List.Perm (tk ++ dr) l) (hnd : l.Nodup) :
    (l.filter (fun x => tk.contains x)).length = tk.length := by
  rw [← (hperm.filter (fun x => tk.contains x)).length_eq]
  rw [List.filter_append]
  rw [List.filter_eq_self.mpr (fun a ha => by simpa using ha)]
  have hdr : dr.filter (fun x => tk.contains x) = [] := by
    apply List.filter_eq_nil_iff.mpr
    intro a ha hcontains
    have hatk : a ∈ tk := by simpa using hcontains
    exact List.disjoint_of_nodup_append (hperm.nodup_iff.mpr hnd) hatk ha
  rw [hdr]
  simp

/-- C1: retention pruning with `keep > 0` leaves exactly
`min(existingCount, keep)` snapshots in the `(workflowId, taskId)` group
(when the group's sort keys are distinct), pruning with `keep <= 0` leaves
every snapshot unchanged, every survivor of the group is at least as recent
(by `createdAt`) as every deleted row, and the test table's
`(existingCount, keep)` pairs (0,1), (1,1), (1,0), (3,1), (4,2), (5,2) leave
0, 1, 1, 1, 2, 2 snapshots respectively. -/
theorem retention_pruning_correct (store : Store) (dagId taskId : String) (keep : Int) :
    (keep ≤ 0 → (deleteOldRecords store dagId taskId keep).1 = store) ∧
    (0 < keep →
      ((store.filter (inGroup dagId taskId)).map (fun r => r.createdAt)).Nodup →
      (((deleteOldRecords store dagId taskId keep).1).filter
          (inGroup dagId taskId)).length =
        min (store.filter (inGroup dagId taskId)).length keep.toNat) ∧
    (0 < keep →
      ∀ s ∈ (deleteOldRecords store dagId taskId keep).1,
        inGroup dagId taskId s = true →
      ∀ d ∈ store, inGroup dagId taskId d = true →
        d ∉ (deleteOldRecords store dagId taskId keep).1 →
        d.createdAt ≤ s.createdAt) ∧
    (remainingCount 0 1 = 0 ∧ remainingCount 1 1 = 1 ∧ remainingCount 1 0 = 1 ∧
      remainingCount 3 1 = 1 ∧ remainingCount 4 2 = 2 ∧ remainingCount 5 2 = 2) := by
  have hresult : 0 < keep → (deleteOldRecords store dagId taskId keep).1 =
      store.filter (fun r => !(inGroup dagId taskId r) ||
        (keepKeys store dagId taskId keep.toNat).contains r.createdAt) := by
    intro hk
    simp only [deleteOldRecords]
    rw [if_neg (by omega)]
  refine ⟨?_, ?_, ?_, rfl, rfl, rfl, rfl, rfl, rfl⟩
  · intro h
    simp only [deleteOldRecords]
    rw [if_pos h]
  · intro hk hnd
    rw [hresult hk]
    rw [List.filter_filter]
    rw [List.filter_congr (fun a (_ : a ∈ store) => show
        (inGroup dagId taskId a && (!(inGroup dagId taskId a) ||
          (keepKeys store dagId taskId keep.toNat).contains a.createdAt)) =
        ((keepKeys store dagId taskId keep.toNat).contains a.createdAt &&
          inGroup dagId taskId a) from by
      cases hga : inGroup dagId taskId a <;> simp [hga, Bool.and_comm])]
    rw [← List.filter_filter]
    have hmapped : ((store.filter (inGroup dagId taskId)).filter (fun r =>
        (keepKeys store dagId taskId keep.toNat).contains r.createdAt)).length =
        (((store.filter (inGroup dagId taskId)).map (fun r => r.createdAt)).filter
          (fun x => (keepKeys store dagId taskId keep.toNat).contains x)).length := by
      rw [List.filter_map, List.length_map]
      exact rfl
    rw [hmapped]
    have hkk : keepKeys store dagId taskId keep.toNat =
        ((List.insertionSort newerOrder
          (store.filter (inGroup dagId taskId))).map (fun r => r.createdAt)).take
          keep.toNat := by
      rw [keepKeys, List.map_take]
    rw [hkk]
    have hperm : List.Perm
        (((List.insertionSort newerOrder
          (store.filter (inGroup dagId taskId))).map (fun r => r.createdAt)).take
          keep.toNat ++
        ((List.insertionSort newerOrder
          (store.filter (inGroup dagId taskId))).map (fun r => r.createdAt)).drop
          keep.toNat)
        ((store.filter (inGroup dagId taskId)).map (fun r => r.createdAt)) := by
      rw [List.take_append_drop]
      exact (List.perm_insertionSort newerOrder
        (store.filter (inGroup dagId taskId))).map (fun r => r.createdAt)
    rw [length_filter_keys _ _ _ hperm hnd]
    rw [List.length_take, List.length_map, List.length_insertionSort]
    exact Nat.min_comm _ _
  · intro hk s hs hgs d hd hgd hnot
    rw [hresult hk] at hs hnot
    have hsc : (keepKeys store dagId taskId keep.toNat).contains s.createdAt = true := by
      have h2 := (List.mem_filter.mp hs).2
      simpa [hgs] using h2
    have hdc : (keepKeys store dagId taskId keep.toNat).contains d.createdAt = false := by
      cases hdc : (keepKeys store dagId taskId keep.toNat).contains d.createdAt with
      | false => rfl
      | true =>
        refine absurd (List.mem_filter.mpr ⟨hd, ?_⟩) hnot
        rw [hgd, hdc]
        rfl
    have hsmem : s.createdAt ∈ ((List.insertionSort newerOrder
        (store.filter (inGroup dagId taskId))).map (fun r => r.createdAt)).take
        keep.toNat := by
      have h3 : s.createdAt ∈ keepKeys store dagId taskId keep.toNat := by
        simpa using hsc
      rwa [keepKeys, List.map_take] at h3
    have hdmem : d.createdAt ∈ ((List.insertionSort newerOrder
        (store.filter (inGroup dagId taskId))).map (fun r => r.createdAt)).drop
        keep.toNat := by
      have hdgroup : d ∈ store.filter (inGroup dagId taskId) :=
        List.mem_filter.mpr ⟨hd, hgd⟩
      have hdkeys : d.createdAt ∈ (List.insertionSort newerOrder
          (store.filter (inGroup dagId taskId))).map (fun r : Snapshot => r.createdAt) :=
        (List.Perm.map (fun r : Snapshot => r.createdAt)
          (List.perm_insertionSort newerOrder
            (store.filter (inGroup dagId taskId)))).mem_iff.mpr
          (List.mem_map_of_mem (fun r : Snapshot => r.createdAt) hdgroup)
      have hdnotkept : d.createdAt ∉ ((List.insertionSort newerOrder
          (store.filter (inGroup dagId taskId))).map
            (fun r : Snapshot => r.createdAt)).take keep.toNat := by
        intro hmem
        have hctrue : (keepKeys store dagId taskId keep.toNat).contains
            d.createdAt = true := by
          rw [keepKeys, List.map_take]
          simpa using hmem
        rw [hctrue] at hdc
        cases hdc
      have hall : d.createdAt ∈ ((List.insertionSort newerOrder
          (store.filter (inGroup dagId taskId))).map
            (fun r : Snapshot => r.createdAt)).take keep.toNat ++
          ((List.insertionSort newerOrder
            (store.filter (inGroup dagId taskId))).map
              (fun r : Snapshot => r.createdAt)).drop keep.toNat := by
        rw [List.take_append_drop]
        exact hdkeys
      rcases List.mem_append.mp hall with h | h
      · exact absurd h hdnotkept
      · exact h
    have hsorted : ((List.insertionSort newerOrder
        (store.filter (inGroup dagId taskId))).map
          (fun r => r.createdAt)).Pairwise (fun x y => y ≤ x) :=
      List.pairwise_map.mpr
        (List.sorted_insertionSort newerOrder (store.filter (inGroup dagId taskId)))
    have hsplit : (((List.insertionSort newerOrder
        (store.filter (inGroup dagId taskId))).map
          (fun r : Snapshot => r.createdAt)).take keep.toNat ++
        ((List.insertionSort newerOrder
          (store.filter (inGroup dagId taskId))).map
            (fun r : Snapshot => r.createdAt)).drop keep.toNat).Pairwise
        (fun x y => y ≤ x) := by
      rw [List.take_append_drop]
      exact hsorted
    exact (List.pairwise_append.mp hsplit).2.2 s.createdAt hsmem d.createdAt hdmem

/-- Witness for C1: at the five-row fixture with `keep = 2` the group retains
`min(5, 2)` rows, and at the one-row fixture `keep = 0` is a no-op. -/
theorem retention_pruning_correct_witness :
    ((deleteOldRecords (mkStore 5) "test_delete_old_records" "test" 2).1.filter
        (inGroup "test_delete_old_records" "test")).length =
      min ((mkStore 5).filter (inGroup "test_delete_old_records" "test")).length
        (Int.toNat 2) ∧
    (deleteOldRecords (mkStore 1) "test_delete_old_records" "test" 0).1 = mkStore 1 :=
  ⟨(retention_pruning_correct (mkStore 5) "test_delete_old_records" "test" 2).2.1
      (by decide) (by decide),
   (retention_pruning_correct (mkStore 1) "test_delete_old_records" "test" 0).1
      (by decide)⟩

end RTIF
